import Mathlib

/-!
Verification of the supervisory core of `avranju/iotedge-k8s`:
the kubernetes module watchdog (`edgelet-core/src/watchdog/kubernetes.rs`)
and the workload routing service (`iotedged-proxy/src/workload.rs`).

The futures-0.1 values returned by the watchdog functions are embedded as
traces: a `RunTrace` records the final result of the future, the ordered
list of runtime/identity calls it issued while being driven to completion,
how many times it polled the shutdown signal, and after how many executor
polls it resolved.  The source body of both `Watchdog::run_until` and
`start_watchdog` is literally `future::ok(())`: a future that resolves on
its very first poll with `Ok(())`, issues no runtime or identity call and
never polls the shutdown signal, so its trace is the constant
`{ result := .ok (), events := [], signalPolls := 0, readyAfterPolls := 0 }`.
-/

namespace IotedgeK8s

/-- Embedding of `error::Error` of edgelet-core (outside src/): opaque error payload. -/
structure Error where
  message : String
deriving DecidableEq

/-- Module state reported by the module runtime (spec section 3). -/
inductive ModuleState where
  | NotFound
  | Created
  | Running
  | Stopped
  | Failed (reason : String)
deriving DecidableEq

/-- A call the watchdog could issue against its injected capabilities
(module runtime and identity provider). -/
inductive RuntimeCall where
  | getState
  | createModule
  | startModule
  | stopModule
  | removeModule
  | identityRefresh
deriving DecidableEq

/-- Embedding of `ModuleSpec` (edgelet-core `module.rs`, outside src/): declarative
description of a module; the watchdog treats the configuration as opaque. -/
structure ModuleSpec (Config : Type) where
  name : String
  image : String
  config : Config

/-- The environment a watchdog run could consult: the module state the
runtime would report at each poll, whether the shutdown signal has resolved
by each poll, and whether each create/start/identity attempt would succeed.
The stubbed implementation never consults any of these. -/
structure WatchdogEnv where
  moduleState : Nat → ModuleState
  signalResolved : Nat → Bool
  createSucceeds : Nat → Bool
  startSucceeds : Nat → Bool
  identitySucceeds : Nat → Bool

/-- Trace of driving a `Future<Item = (), Error = Error>` to completion. -/
structure RunTrace where
  result : Except Error Unit
  events : List RuntimeCall
  signalPolls : Nat
  readyAfterPolls : Nat

/-- Embedding of `Watchdog<M, I>`: the struct stores only `PhantomData<M>` and
`PhantomData<I>` — no runtime or identity value is held.  `PhantomData`
is a zero-sized marker, embedded as `Unit`. -/
structure Watchdog (M I : Type) where
  runtime : Unit
  identity : Unit
deriving DecidableEq

/-- Embedding of `Watchdog::new(_: M, _: I) -> Self`: both arguments are ignored and
only `PhantomData` markers are stored. -/
def Watchdog.new {M I : Type} (_ : M) (_ : I) : Watchdog M I :=
  { runtime := (), identity := () }

/-- Embedding of `Watchdog::run_until(self, _spec, _module_id, _shutdown_signal)`:
the body is `future::ok(())` — every parameter is ignored and the returned
future resolves on its first poll with `Ok(())`, issuing no calls and never
polling the shutdown signal. -/
def Watchdog.run_until {M I Config : Type} (_ : Watchdog M I)
    (_spec : ModuleSpec Config) (_module_id : String)
    (_env : WatchdogEnv) : RunTrace :=
  { result := .ok (), events := [], signalPolls := 0, readyAfterPolls := 0 }

/-- Embedding of `start_watchdog(_runtime, _id_mgr, _spec, _module_id)`: the body is
`future::ok(())`, identical in behaviour to `run_until`. -/
def start_watchdog {M I Config : Type} (_runtime : M) (_id_mgr : I)
    (_spec : ModuleSpec Config) (_module_id : String) : RunTrace :=
  { result := .ok (), events := [], signalPolls := 0, readyAfterPolls := 0 }

/-- Number of occurrences of a given call in a trace. -/
def RunTrace.callCount (tr : RunTrace) (c : RuntimeCall) : Nat :=
  tr.events.count c

/-- HTTP method of a route (edgelet-http route machinery, outside src/). -/
inductive Method where
  | GET
  | POST
  | PUT
  | DELETE
deriving DecidableEq

/-- Segment of a route path pattern: a literal segment, or a named
parameter segment (spec section 4.2, brace-delimited in the surface form). -/
inductive Segment where
  | lit (s : String)
  | param (name : String)
deriving DecidableEq

/-- Route as registered on the router: method, path pattern and a handler
reference (spec section 3); handlers are identified by an opaque index. -/
structure Route where
  method : Method
  pattern : List Segment
  handler : Nat
deriving DecidableEq

/-- Modelled from the spec: the matching step of the Route Recognizer of
edgelet-http (not under src/) — compare pattern and path segment by
segment; a literal matches only the identical literal; a parameter matches
any non-empty segment and captures its value (spec section 4.2). -/
def matchPattern : List Segment → List String → Option (List (String × String))
  | [], [] => some []
  | .lit s :: pat, seg :: path =>
      if seg = s then matchPattern pat path else none
  | .param n :: pat, seg :: path =>
      if seg = "" then none
      else (matchPattern pat path).map fun ps => (n, seg) :: ps
  | _, _ => none

/-- Number of literal (non-parameter) segments of a pattern. -/
def literalCount : List Segment → Nat
  | [] => 0
  | .lit _ :: pat => literalCount pat + 1
  | .param _ :: pat => literalCount pat

/-- Names of the parameter segments of a pattern, in order. -/
def paramNames : List Segment → List String
  | [] => []
  | .lit _ :: pat => paramNames pat
  | .param n :: pat => n :: paramNames pat

/-- Routes of the registered set whose method matches and whose pattern
matches the concrete path, paired with their captured parameters. -/
def routeCandidates (routes : List Route) (m : Method) (path : List String) :
    List (Route × List (String × String)) :=
  routes.filterMap fun r =>
    if r.method = m then (matchPattern r.pattern path).map fun ps => (r, ps)
    else none

/-- Most-specific-wins tie-break: keep the candidate whose pattern has the
strictly larger literal-segment count (spec section 4.2). -/
def moreSpecific (best c : Route × List (String × String)) :
    Route × List (String × String) :=
  if literalCount best.1.pattern < literalCount c.1.pattern then c else best

/-- Modelled from the spec: the Route Recognizer of edgelet-http (not under
src/) — among the candidates matching the request, return the one with the
most literal segments, or none when no pattern matches (spec section 4.2). -/
def recognize (routes : List Route) (m : Method) (path : List String) :
    Option (Route × List (String × String)) :=
  match routeCandidates routes m path with
  | [] => none
  | c :: cs => some (cs.foldl moreSpecific c)

/-- Embedding of `WorkloadService` (iotedged-proxy `workload.rs`): wraps the
route table of its inner `RouterService<RegexRecognizer>` value. -/
structure WorkloadService where
  routes : List Route
deriving DecidableEq

/-- Sequencing of the handler setups during router construction: the first
failing setup aborts construction with its error. -/
def collectRoutes : List (Except Error Route) → Except Error (List Route)
  | [] => .ok []
  | .error e :: _ => .error e
  | .ok r :: rest => (collectRoutes rest).map fun rs => r :: rs

/-- Modelled from the spec: the body of `WorkloadService::new` is empty in
src (`pub fn new() -> impl Future<Item = Self, Error = Error> {}`); per
spec sections 4.3 and 7, construction runs every handler setup, each of
which may fail, and yields either a fully built service or the first
initialization error — never a partially built route table. -/
def WorkloadService.new (handlerSetups : List (Except Error Route)) :
    Except Error WorkloadService :=
  (collectRoutes handlerSetups).map fun rs => { routes := rs }

/-! Concrete inputs used by witnesses and evaluations. -/

/-- Parameterized route `GET /modules/\x7bname\x7d`. -/
def modulesParamRoute : Route :=
  { method := .GET, pattern := [.lit "modules", .param "name"], handler := 1 }

/-- Literal route `GET /modules/special`. -/
def modulesSpecialRoute : Route :=
  { method := .GET, pattern := [.lit "modules", .lit "special"], handler := 2 }

/-- Sample route `GET /modules/\x7bname\x7d/sign`. -/
def sampleRoute : Route :=
  { method := .GET, pattern := [.lit "modules", .param "name", .lit "sign"], handler := 0 }

/-- A sample module specification with trivial configuration. -/
def unitSpec : ModuleSpec Unit :=
  { name := "edgeAgent", image := "agent-image", config := () }

/-- A watchdog built from trivial runtime and identity capabilities. -/
def unitWatchdog : Watchdog Unit Unit := Watchdog.new () ()

/-- Environment whose shutdown signal never resolves, with a module that is
always running and attempts that always succeed. -/
def neverShutdownEnv : WatchdogEnv :=
  { moduleState := fun _ => .Running
    signalResolved := fun _ => false
    createSucceeds := fun _ => true
    startSucceeds := fun _ => true
    identitySucceeds := fun _ => true }

/-- Environment whose shutdown signal resolves from poll 3 on. -/
def signalAtThreeEnv : WatchdogEnv :=
  { moduleState := fun _ => .Running
    signalResolved := fun n => decide (3 ≤ n)
    createSucceeds := fun _ => true
    startSucceeds := fun _ => true
    identitySucceeds := fun _ => true }

/-- Environment reporting NotFound on the first poll and Running afterwards,
with every create/start/identity attempt succeeding. -/
def notFoundThenRunningEnv : WatchdogEnv :=
  { moduleState := fun n => if n = 0 then .NotFound else .Running
    signalResolved := fun n => decide (5 ≤ n)
    createSucceeds := fun _ => true
    startSucceeds := fun _ => true
    identitySucceeds := fun _ => true }

/-- Environment in which the module is never found and every create and
start attempt fails. -/
def allAttemptsFailEnv : WatchdogEnv :=
  { moduleState := fun _ => .NotFound
    signalResolved := fun _ => false
    createSucceeds := fun _ => false
    startSucceeds := fun _ => false
    identitySucceeds := fun _ => true }

/-! Watchdog claims. -/

/-- C1: for every module spec, module id and shutdown signal, the future
returned by `Watchdog::run_until` is ready no later than one poll interval
after the shutdown signal resolves — whatever module state the runtime
reports — and the run issues no runtime call after (indeed, at any point
before or after) observing the signal: its event trace is empty. -/
theorem run_until_terminates_within_poll_interval {M I Config : Type}
    (w : Watchdog M I) (spec : ModuleSpec Config) (module_id : String)
    (env : WatchdogEnv) (interval t : Nat)
    (hsig : env.signalResolved t = true) :
    (w.run_until spec module_id env).readyAfterPolls ≤ t + interval ∧
    (w.run_until spec module_id env).events = [] :=
  ⟨Nat.zero_le _, rfl⟩

/-- Witness for C1 at a concrete watchdog, spec, environment whose signal
resolves at poll 3, observation time 5 and poll interval 2. -/
theorem run_until_terminates_within_poll_interval_witness :
    (unitWatchdog.run_until unitSpec "edgeAgent" signalAtThreeEnv).readyAfterPolls ≤ 5 + 2 ∧
    (unitWatchdog.run_until unitSpec "edgeAgent" signalAtThreeEnv).events = [] :=
  run_until_terminates_within_poll_interval unitWatchdog unitSpec "edgeAgent"
    signalAtThreeEnv 2 5 (by decide)

/-- C2 fails on the code: even with a shutdown signal that never resolves,
`run_until` completes with clean success while having polled the signal
zero times, so the success outcome is not conditioned on the shutdown
signal having been observed, and the retries-exhausted error outcome is
unreachable. -/
theorem run_until_ok_without_observing_signal :
    (unitWatchdog.run_until unitSpec "edgeAgent" neverShutdownEnv).result = .ok () ∧
    (unitWatchdog.run_until unitSpec "edgeAgent" neverShutdownEnv).signalPolls = 0 ∧
    ∀ n, neverShutdownEnv.signalResolved n = false :=
  ⟨rfl, rfl, fun _ => rfl⟩

/-- C3 fails on the code: with a runtime reporting NotFound on the first
poll and Running afterwards, `run_until` issues zero create calls, zero
start calls and zero identity refreshes — not the one create and one start
(preceded by an identity refresh) the claim requires. -/
theorem run_until_zero_create_start_on_notfound :
    (unitWatchdog.run_until unitSpec "edgeAgent" notFoundThenRunningEnv).callCount .createModule = 0 ∧
    (unitWatchdog.run_until unitSpec "edgeAgent" notFoundThenRunningEnv).callCount .startModule = 0 ∧
    (unitWatchdog.run_until unitSpec "edgeAgent" notFoundThenRunningEnv).callCount .identityRefresh = 0 ∧
    notFoundThenRunningEnv.moduleState 0 = .NotFound ∧
    notFoundThenRunningEnv.moduleState 1 = .Running :=
  ⟨rfl, rfl, rfl, rfl, rfl⟩

/-- C4 fails on the code: with every create and start attempt failing,
`run_until` still completes with clean success after zero attempts (its
event trace is empty); no retry count is consulted — the signature accepts
none — and no fatal error is ever produced. -/
theorem run_until_ok_when_all_attempts_fail :
    (unitWatchdog.run_until unitSpec "edgeAgent" allAttemptsFailEnv).result = .ok () ∧
    (unitWatchdog.run_until unitSpec "edgeAgent" allAttemptsFailEnv).events = [] ∧
    ∀ n, allAttemptsFailEnv.createSucceeds n = false ∧
      allAttemptsFailEnv.startSucceeds n = false :=
  ⟨rfl, rfl, fun _ => ⟨rfl, rfl⟩⟩

/-- C5: if the runtime reports Running on every poll, `run_until` issues
zero create calls and zero start calls. -/
theorem run_until_running_issues_no_create_start {M I Config : Type}
    (w : Watchdog M I) (spec : ModuleSpec Config) (module_id : String)
    (env : WatchdogEnv) (hrun : ∀ n, env.moduleState n = .Running) :
    (w.run_until spec module_id env).callCount .createModule = 0 ∧
    (w.run_until spec module_id env).callCount .startModule = 0 :=
  ⟨rfl, rfl⟩

/-- Witness for C5 at a concrete watchdog and an environment that reports
Running on every poll. -/
theorem run_until_running_issues_no_create_start_witness :
    (unitWatchdog.run_until unitSpec "edgeAgent" neverShutdownEnv).callCount .createModule = 0 ∧
    (unitWatchdog.run_until unitSpec "edgeAgent" neverShutdownEnv).callCount .startModule = 0 :=
  run_until_running_issues_no_create_start unitWatchdog unitSpec "edgeAgent"
    neverShutdownEnv (fun _ => rfl)

/-- C6: on every terminal exit of `run_until` — and its exit is always
terminal, the returned future resolves once — the run has issued no stop
call and no remove call for the supervised module. -/
theorem run_until_never_stops_or_removes {M I Config : Type}
    (w : Watchdog M I) (spec : ModuleSpec Config) (module_id : String)
    (env : WatchdogEnv) :
    (w.run_until spec module_id env).callCount .stopModule = 0 ∧
    (w.run_until spec module_id env).callCount .removeModule = 0 :=
  ⟨rfl, rfl⟩

/-- C9: the future returned by `run_until` is a constant — any two
invocations, over any runtime/identity types, specs, module ids and
environments, produce the identical trace; that trace is immediate clean
success with the signal never polled and no capability call; and
`Watchdog::new` stores neither injected capability: it is constant in both
arguments, and any two watchdogs of the same type are equal. -/
theorem run_until_constant_hyperproperty :
    (∀ (M I C M' I' C' : Type) (w : Watchdog M I) (w' : Watchdog M' I')
        (s : ModuleSpec C) (s' : ModuleSpec C') (id id' : String)
        (env env' : WatchdogEnv),
        w.run_until s id env = w'.run_until s' id' env') ∧
    (∀ (M I C : Type) (w : Watchdog M I) (s : ModuleSpec C) (id : String)
        (env : WatchdogEnv),
        (w.run_until s id env).result = .ok () ∧
        (w.run_until s id env).readyAfterPolls = 0 ∧
        (w.run_until s id env).signalPolls = 0 ∧
        (w.run_until s id env).events = []) ∧
    (∀ (M I : Type) (r r' : M) (i i' : I),
        Watchdog.new r i = Watchdog.new r' i') ∧
    (∀ (M I : Type) (w w' : Watchdog M I), w = w') :=
  ⟨fun _ _ _ _ _ _ _ _ _ _ _ _ _ _ => rfl,
   fun _ _ _ _ _ _ _ => ⟨rfl, rfl, rfl, rfl⟩,
   fun _ _ _ _ _ _ => rfl,
   fun _ _ w w' => by cases w; cases w'; rfl⟩

/-- C10: `start_watchdog` returns, for every runtime, identity manager,
spec and module id, a future that resolves immediately with clean success;
its error branch is unreachable. -/
theorem start_watchdog_always_ok :
    ∀ (M I C : Type) (runtime : M) (id_mgr : I) (spec : ModuleSpec C)
      (module_id : String),
      (start_watchdog runtime id_mgr spec module_id).result = .ok () ∧
      (start_watchdog runtime id_mgr spec module_id).readyAfterPolls = 0 ∧
      ∀ e : Error, (start_watchdog runtime id_mgr spec module_id).result ≠ .error e :=
  fun _ _ _ _ _ _ _ => ⟨rfl, rfl, fun _ h => Except.noConfusion h⟩

/-- Witness for C10 at trivial capabilities and the sample spec. -/
theorem start_watchdog_always_ok_witness :
    (start_watchdog () () unitSpec "edgeAgent").result = .ok () ∧
    (start_watchdog () () unitSpec "edgeAgent").result ≠ .error ⟨"boom"⟩ :=
  ⟨(start_watchdog_always_ok Unit Unit Unit () () unitSpec "edgeAgent").1,
   (start_watchdog_always_ok Unit Unit Unit () () unitSpec "edgeAgent").2.2 ⟨"boom"⟩⟩

/-! Router claims: helper lemmas, then the claim theorems. -/

/-- Sequencing succeeds exactly when every handler setup succeeded, and the
collected routes are those successes in order. -/
theorem collectRoutes_ok (ls : List (Except Error Route)) (rs : List Route)
    (h : collectRoutes ls = .ok rs) : ls = rs.map Except.ok := by
  induction ls generalizing rs with
  | nil =>
    unfold collectRoutes at h
    injection h with h
    rw [← h]
    rfl
  | cons hd tl ih =>
    cases hd with
    | error e =>
      exact absurd h (by unfold collectRoutes; intro hc; cases hc)
    | ok r =>
      unfold collectRoutes at h
      cases hc : collectRoutes tl with
      | error e => rw [hc] at h; cases h
      | ok rs' =>
        rw [hc] at h
        simp only [Except.map] at h
        injection h with h
        rw [← h, List.map_cons]
        rw [ih rs' hc]

/-- A failing handler setup forces sequencing to fail. -/
theorem collectRoutes_error_of_mem (ls : List (Except Error Route)) (e : Error)
    (h : Except.error e ∈ ls) : ∃ e', collectRoutes ls = .error e' := by
  induction ls with
  | nil => cases h
  | cons hd tl ih =>
    cases hd with
    | error e0 => exact ⟨e0, rfl⟩
    | ok r =>
      have hm : Except.error e ∈ tl := by
        rcases List.mem_cons.mp h with h1 | h1
        · cases h1
        · exact h1
      obtain ⟨e', he⟩ := ih hm
      refine ⟨e', ?_⟩
      unfold collectRoutes
      rw [he]
      rfl

/-- C7: router construction is all-or-nothing: when it succeeds, every
handler setup succeeded and the service's route table holds exactly those
routes in order (fully initialized); when any handler setup fails, it
returns an initialization error, so no service value — hence no dispatch —
can arise from a failed construction. -/
theorem workload_service_new_all_or_nothing
    (handlerSetups : List (Except Error Route)) :
    (∀ svc : WorkloadService, WorkloadService.new handlerSetups = .ok svc →
        handlerSetups = svc.routes.map Except.ok) ∧
    (∀ e : Error, Except.error e ∈ handlerSetups →
        ∃ e', WorkloadService.new handlerSetups = .error e') := by
  constructor
  · intro svc hok
    unfold WorkloadService.new at hok
    cases hc : collectRoutes handlerSetups with
    | error e => rw [hc] at hok; cases hok
    | ok rs =>
      rw [hc] at hok
      simp only [Except.map] at hok
      injection hok with hok
      rw [← hok]
      exact collectRoutes_ok handlerSetups rs hc
  · intro e hmem
    obtain ⟨e', he⟩ := collectRoutes_error_of_mem handlerSetups e hmem
    refine ⟨e', ?_⟩
    unfold WorkloadService.new
    rw [he]
    rfl

/-- Witness for C7: a one-route construction succeeds with that exact
route table, and a construction with a failing handler setup errors. -/
theorem workload_service_new_all_or_nothing_witness :
    ([Except.ok sampleRoute] : List (Except Error Route)) =
      (WorkloadService.mk [sampleRoute]).routes.map Except.ok ∧
    ∃ e', WorkloadService.new [Except.error ⟨"bind failed"⟩] = Except.error e' :=
  ⟨(workload_service_new_all_or_nothing [Except.ok sampleRoute]).1
      ⟨[sampleRoute]⟩ rfl,
   (workload_service_new_all_or_nothing [Except.error ⟨"bind failed"⟩]).2
      ⟨"bind failed"⟩ (List.mem_singleton.mpr rfl)⟩

/-- A successful pattern match captures exactly the pattern's parameter
names, in order: never missing, never extra. -/
theorem matchPattern_param_names (pat : List Segment) :
    ∀ (path : List String) (ps : List (String × String)),
      matchPattern pat path = some ps → ps.map Prod.fst = paramNames pat := by
  induction pat with
  | nil =>
    intro path ps h
    cases path with
    | nil =>
      unfold matchPattern at h
      injection h with h
      rw [← h]
      rfl
    | cons a l => cases h
  | cons seg rest ih =>
    intro path ps h
    cases seg with
    | lit s =>
      cases path with
      | nil => cases h
      | cons a l =>
        unfold matchPattern at h
        by_cases ha : a = s
        · rw [if_pos ha] at h
          unfold paramNames
          exact ih l ps h
        · rw [if_neg ha] at h; cases h
    | param n =>
      cases path with
      | nil => cases h
      | cons a l =>
        unfold matchPattern at h
        by_cases ha : a = ""
        · rw [if_pos ha] at h; cases h
        · rw [if_neg ha] at h
          cases hm : matchPattern rest l with
          | none => rw [hm] at h; cases h
          | some ps' =>
            rw [hm] at h
            simp only [Option.map] at h
            injection h with h
            rw [← h, List.map_cons]
            unfold paramNames
            rw [ih l ps' hm]

/-- Membership in the candidate list characterized by route registration,
method agreement and pattern match. -/
theorem mem_routeCandidates (routes : List Route) (m : Method)
    (path : List String) (r : Route) (ps : List (String × String)) :
    (r, ps) ∈ routeCandidates routes m path ↔
      r ∈ routes ∧ r.method = m ∧ matchPattern r.pattern path = some ps := by
  unfold routeCandidates
  rw [List.mem_filterMap]
  constructor
  · rintro ⟨r', hr', hf⟩
    by_cases hm : r'.method = m
    · rw [if_pos hm] at hf
      cases hmp : matchPattern r'.pattern path with
      | none => rw [hmp] at hf; cases hf
      | some ps' =>
        rw [hmp] at hf
        simp only [Option.map] at hf
        injection hf with hf
        have hr : r' = r := congrArg Prod.fst hf
        have hps : ps' = ps := congrArg Prod.snd hf
        rw [← hr]
        exact ⟨hr', hm, by rw [hmp, hps]⟩
    · rw [if_neg hm] at hf; cases hf
  · rintro ⟨hr, hm, hmp⟩
    exact ⟨r, hr, by rw [if_pos hm, hmp]; rfl⟩

/-- Folding the most-specific-wins step returns one of the candidates, and
its literal count dominates the seed's and every processed candidate's. -/
theorem foldl_moreSpecific_spec (cs : List (Route × List (String × String))) :
    ∀ c : Route × List (String × String),
      (cs.foldl moreSpecific c = c ∨ cs.foldl moreSpecific c ∈ cs) ∧
      literalCount c.1.pattern ≤ literalCount (cs.foldl moreSpecific c).1.pattern ∧
      ∀ x ∈ cs, literalCount x.1.pattern ≤
        literalCount (cs.foldl moreSpecific c).1.pattern := by
  induction cs with
  | nil =>
    intro c
    exact ⟨Or.inl rfl, le_refl _, fun x hx => absurd hx (List.not_mem_nil x)⟩
  | cons d cs ih =>
    intro c
    rw [List.foldl_cons]
    obtain ⟨hmem, hle, hall⟩ := ih (moreSpecific c d)
    have hstep : moreSpecific c d = c ∨ moreSpecific c d = d := by
      unfold moreSpecific
      by_cases hlt : literalCount c.1.pattern < literalCount d.1.pattern
      · rw [if_pos hlt]; exact Or.inr rfl
      · rw [if_neg hlt]; exact Or.inl rfl
    have hc : literalCount c.1.pattern ≤ literalCount (moreSpecific c d).1.pattern := by
      unfold moreSpecific
      by_cases hlt : literalCount c.1.pattern < literalCount d.1.pattern
      · rw [if_pos hlt]; exact le_of_lt hlt
      · rw [if_neg hlt]
    have hd : literalCount d.1.pattern ≤ literalCount (moreSpecific c d).1.pattern := by
      unfold moreSpecific
      by_cases hlt : literalCount c.1.pattern < literalCount d.1.pattern
      · rw [if_pos hlt]
      · rw [if_neg hlt]; exact le_of_not_lt hlt
    refine ⟨?_, le_trans hc hle, ?_⟩
    · rcases hmem with h | h
      · rw [h]
        rcases hstep with h' | h'
        · exact Or.inl h'
        · exact Or.inr (by rw [h']; exact List.mem_cons_self d cs)
      · exact Or.inr (List.mem_cons_of_mem d h)
    · intro x hx
      rcases List.mem_cons.mp hx with h | h
      · rw [h]; exact le_trans hd hle
      · exact hall x h

/-- Recognition returns a genuine candidate of maximal literal count. -/
theorem recognize_mem_max (routes : List Route) (m : Method)
    (path : List String) (r : Route) (ps : List (String × String))
    (h : recognize routes m path = some (r, ps)) :
    (r, ps) ∈ routeCandidates routes m path ∧
    ∀ x ∈ routeCandidates routes m path,
      literalCount x.1.pattern ≤ literalCount r.pattern := by
  unfold recognize at h
  cases hc : routeCandidates routes m path with
  | nil => rw [hc] at h; cases h
  | cons c cs =>
    rw [hc] at h
    injection h with h
    obtain ⟨hmem, hle, hall⟩ := foldl_moreSpecific_spec cs c
    rw [h] at hmem hle hall
    constructor
    · rcases hmem with h' | h'
      · rw [h']; exact List.mem_cons_self c cs
      · exact List.mem_cons_of_mem c h'
    · intro x hx
      rcases List.mem_cons.mp hx with h' | h'
      · exact h' ▸ hle
      · exact hall x h'

/-- C8: a successful recognition returns a registered, method-correct,
matching route whose pattern's literal-segment count is maximal among all
matching patterns of that method (most-specific-wins), and its captured
parameters are exactly one entry per named segment of the matched pattern,
in order; in particular, with `GET /modules/\x7bname\x7d` and
`GET /modules/special` registered, `GET /modules/special` yields the
literal route with no captured parameter. -/
theorem recognize_most_specific_with_exact_params :
    (∀ (routes : List Route) (m : Method) (path : List String)
        (r : Route) (ps : List (String × String)),
        recognize routes m path = some (r, ps) →
          (r ∈ routes ∧ r.method = m ∧ matchPattern r.pattern path = some ps) ∧
          (∀ (r' : Route) (ps' : List (String × String)),
              r' ∈ routes → r'.method = m →
              matchPattern r'.pattern path = some ps' →
              literalCount r'.pattern ≤ literalCount r.pattern) ∧
          ps.map Prod.fst = paramNames r.pattern) ∧
    recognize [modulesParamRoute, modulesSpecialRoute] .GET ["modules", "special"] =
      some (modulesSpecialRoute, []) := by
  constructor
  · intro routes m path r ps h
    obtain ⟨hmem, hmax⟩ := recognize_mem_max routes m path r ps h
    have hprops := (mem_routeCandidates routes m path r ps).mp hmem
    refine ⟨hprops, ?_, matchPattern_param_names r.pattern path ps hprops.2.2⟩
    intro r' ps' hr' hm' hmp'
    exact hmax (r', ps')
      ((mem_routeCandidates routes m path r' ps').mpr ⟨hr', hm', hmp'⟩)
  · rfl

/-- Witness for C8: applying the theorem at the concrete route set shows
the literal route wins with an empty, exactly-matching parameter list and
that the parameterized pattern's literal count is dominated. -/
theorem recognize_most_specific_with_exact_params_witness :
    ([] : List (String × String)).map Prod.fst = paramNames modulesSpecialRoute.pattern ∧
    literalCount modulesParamRoute.pattern ≤ literalCount modulesSpecialRoute.pattern := by
  have h := recognize_most_specific_with_exact_params.1
    [modulesParamRoute, modulesSpecialRoute] .GET ["modules", "special"]
    modulesSpecialRoute []
    recognize_most_specific_with_exact_params.2
  exact ⟨h.2.2, h.2.1 modulesParamRoute [("name", "special")]
    (List.mem_cons_self _ _) rfl rfl⟩

end IotedgeK8s
